import Mathlib

/-!
Verification of the agent control loop and tool-call protocol of a minimal
tool-calling agent library (source files `agent.py` and `config.py`).

The embedding translates the data model (`Role`, `Message`, `Tool`, `Agent`),
the tool-call parser (`_parse_tool_call`), the tool invoker (`_execute_tool`),
the prompt assembly (`_build_system_prompt`, `_format_tool_description`) and
the main loop (`run`) into executable Lean definitions.

Modelling conventions:
* Python values parsed from JSON become the inductive `Json`; Python's
  `json.loads` becomes the fueled recursive-descent parser `jsonLoads`
  (integer numbers only; float literals, `\uXXXX` escapes, `Infinity`/`NaN`
  are treated as decode errors — no claim depends on those inputs).
* A Python exception escaping a function becomes `Except.error (e : PyErr)`.
* The opaque tool handler call `tool.function(**params)` (including failures
  of the call machinery itself: non-mapping `params`, wrong arity, and any
  exception the handler raises) is modelled as a field
  `function : Json → Except String String`; the `Except.ok` value is the
  Python `str(result)` and the `Except.error` value is `str(e)`.
* The external model back-ends behind `_call_llm` are modelled as an oracle
  `gw : Nat → List Message → String` giving the text of the i-th model call
  on a given history.
* Python lists are aliased mutable objects; to make the non-mutation claim
  about `run` expressible, message lists live in a `Store` (a list of lists)
  and the source's `messages.copy()` / `insert(0, _)` / `append` become the
  explicit store operations below.  Characters are modelled at the ASCII
  level (Python's `\s` and `str.strip` also cover some unicode whitespace;
  no claim involves non-ASCII whitespace).
-/

-- ─── Data model (agent.py lines 22-47, 49-68) ────────────────────────────

/-- Role enum from agent.py. -/
inductive Role where
  | user
  | assistant
  | system
  | tool_call
  | tool_result
  deriving DecidableEq, Repr

/-- Values produced by parsing JSON text (the result of `json.loads`). -/
inductive Json where
  | null
  | bool (b : Bool)
  | num (n : Int)
  | str (s : String)
  | arr (xs : List Json)
  | obj (kvs : List (String × Json))

/-- Message from agent.py: role, content, and the optional tool name.
The source annotates `tool_name : Optional[str]`, but `run` actually stores
`tool_call["name"]`, which can be any parsed JSON value, so the field is
modelled as `Option Json`. -/
structure Message where
  role : Role
  content : String
  tool_name : Option Json := none

/-- Python exceptions that can escape the modelled code paths. -/
inductive PyErr where
  | typeError
  | keyError
  deriving DecidableEq, Repr

/-- One entry of a tool's parameter schema: the dict
`{"type": ..., "required": ..., "description": ...}` from the source, with
`description` optional (the source reads it via `.get("description", "")`). -/
structure ParamInfo where
  type : String
  required : Bool
  description : Option String := none
  deriving DecidableEq

/-- Tool from agent.py: name, description, parameter schema (a dict, i.e. an
insertion-ordered association list) and the opaque handler. -/
structure Tool where
  name : String
  description : String
  parameters : List (String × ParamInfo)
  function : Json → Except String String

/-- The configuration surface of Agent.__init__ that the control loop reads.
The provider/API-key validation and the model/token/temperature settings only
affect the external gateway, which is abstracted as the oracle `gw`. -/
structure Agent where
  agent_name : String
  agent_description : String
  custom_system_prompt : String
  tools : List Tool
  max_iterations : Nat

-- ─── Character and string helpers ────────────────────────────────────────

/-- ASCII whitespace matched by the regex class `\s` and by `str.strip()`. -/
def isPySpace (c : Char) : Bool :=
  c == ' ' || c == '\t' || c == '\n' || c == '\r' ||
  c == Char.ofNat 11 || c == Char.ofNat 12

/-- Strip leading and trailing whitespace from a character list. -/
def pyStrip (cs : List Char) : List Char :=
  ((cs.dropWhile isPySpace).reverse.dropWhile isPySpace).reverse

/-- Python `str.strip()`. -/
def pyStripStr (s : String) : String := String.mk (pyStrip s.data)

/-- Python `sep.join(list)`. -/
def joinSep (sep : String) : List String → String
  | [] => ""
  | [x] => x
  | x :: y :: rest => x ++ sep ++ joinSep sep (y :: rest)

/-- Bool-valued substring test: does `needle` occur inside `hay`? -/
def infixB (needle : List Char) : List Char → Bool
  | [] => needle.isEmpty
  | c :: hs => needle.isPrefixOf (c :: hs) || infixB needle hs

/-- Python `needle in hay` on strings. -/
def containsStr (hay needle : String) : Bool := infixB needle.data hay.data

/-- Split a character list at the first occurrence of `pat`, returning the
part before the occurrence and the part after it. -/
def splitFirstAt (pat : List Char) : List Char → Option (List Char × List Char)
  | [] => if pat.isEmpty then some ([], []) else none
  | c :: cs =>
    if pat.isPrefixOf (c :: cs) then some ([], (c :: cs).drop pat.length)
    else
      match splitFirstAt pat cs with
      | some (pre, post) => some (c :: pre, post)
      | none => none

def charLBrace : Char := Char.ofNat 123
def charRBrace : Char := Char.ofNat 125

-- ─── JSON value parser (model of json.loads) ─────────────────────────────

/-- JSON inter-token whitespace accepted by `json.loads`. -/
def isJsonWs (c : Char) : Bool := c == ' ' || c == '\t' || c == '\n' || c == '\r'

def skipJsonWs (cs : List Char) : List Char := cs.dropWhile isJsonWs

/-- Parse the body of a JSON string literal (after the opening quote),
returning the decoded characters and the remainder after the closing quote. -/
def parseJStringAux : List Char → Option (List Char × List Char)
  | [] => none
  | c :: cs =>
    if c = '"' then some ([], cs)
    else if c = '\\' then
      match cs with
      | [] => none
      | e :: cs2 =>
        let dec? : Option Char :=
          if e = '"' then some '"'
          else if e = '\\' then some '\\'
          else if e = '/' then some '/'
          else if e = 'n' then some '\n'
          else if e = 't' then some '\t'
          else if e = 'r' then some '\r'
          else if e = 'b' then some (Char.ofNat 8)
          else if e = 'f' then some (Char.ofNat 12)
          else none
        match dec? with
        | none => none
        | some d =>
          match parseJStringAux cs2 with
          | none => none
          | some (out, rest) => some (d :: out, rest)
    else if c.toNat < 32 then none
    else
      match parseJStringAux cs with
      | none => none
      | some (out, rest) => some (c :: out, rest)

def digitsToNat (ds : List Char) : Nat :=
  List.foldl (fun acc c => acc * 10 + (c.toNat - 48)) 0 ds

/-- Python dict insertion: replace the value at an existing key (keeping its
position), otherwise append the binding.  Used when the object parser meets
duplicate keys, matching `json.loads` (last value wins). -/
def updateKv : List (String × Json) → String → Json → List (String × Json)
  | [], k, v => [(k, v)]
  | (k0, v0) :: rest, k, v =>
    if k0 == k then (k0, v) :: rest else (k0, v0) :: updateKv rest k v

/-- Parse the members of a JSON array after the opening bracket, given a
parser `pv` for element values. -/
def arrLoop (pv : List Char → Except Unit (Json × List Char)) :
    Nat → List Char → List Json → Except Unit (Json × List Char)
  | 0, _, _ => Except.error ()
  | fuel+1, cs, acc =>
    match pv cs with
    | Except.error _ => Except.error ()
    | Except.ok (v, r) =>
      match skipJsonWs r with
      | c :: r2 =>
        if c = ',' then arrLoop pv fuel r2 (acc ++ [v])
        else if c = ']' then Except.ok (Json.arr (acc ++ [v]), r2)
        else Except.error ()
      | [] => Except.error ()

/-- Parse the members of a JSON object after the opening brace, given a
parser `pv` for member values. -/
def objLoop (pv : List Char → Except Unit (Json × List Char)) :
    Nat → List Char → List (String × Json) → Except Unit (Json × List Char)
  | 0, _, _ => Except.error ()
  | fuel+1, cs, acc =>
    match skipJsonWs cs with
    | c :: rest =>
      if c = '"' then
        match parseJStringAux rest with
        | none => Except.error ()
        | some (key, r1) =>
          match skipJsonWs r1 with
          | c2 :: r2 =>
            if c2 = ':' then
              match pv r2 with
              | Except.error _ => Except.error ()
              | Except.ok (v, r3) =>
                let acc2 := updateKv acc (String.mk key) v
                match skipJsonWs r3 with
                | c3 :: r4 =>
                  if c3 = ',' then objLoop pv fuel r4 acc2
                  else if c3 = charRBrace then Except.ok (Json.obj acc2, r4)
                  else Except.error ()
                | [] => Except.error ()
            else Except.error ()
          | [] => Except.error ()
      else Except.error ()
    | [] => Except.error ()

/-- Fueled recursive-descent parser for one JSON value. -/
def jsonParse : Nat → List Char → Except Unit (Json × List Char)
  | 0, _ => Except.error ()
  | fuel+1, cs0 =>
    match skipJsonWs cs0 with
    | [] => Except.error ()
    | c :: rest =>
      if c = '"' then
        match parseJStringAux rest with
        | none => Except.error ()
        | some (out, r) => Except.ok (Json.str (String.mk out), r)
      else if c = charLBrace then
        match skipJsonWs rest with
        | c2 :: r2 =>
          if c2 = charRBrace then Except.ok (Json.obj [], r2)
          else objLoop (jsonParse fuel) fuel (c2 :: r2) []
        | [] => Except.error ()
      else if c = '[' then
        match skipJsonWs rest with
        | c2 :: r2 =>
          if c2 = ']' then Except.ok (Json.arr [], r2)
          else arrLoop (jsonParse fuel) fuel (c2 :: r2) []
        | [] => Except.error ()
      else if "null".data.isPrefixOf (c :: rest) then
        Except.ok (Json.null, (c :: rest).drop 4)
      else if "true".data.isPrefixOf (c :: rest) then
        Except.ok (Json.bool true, (c :: rest).drop 4)
      else if "false".data.isPrefixOf (c :: rest) then
        Except.ok (Json.bool false, (c :: rest).drop 5)
      else
        let (neg, cs1) := if c = '-' then (true, rest) else (false, c :: rest)
        let ds := cs1.takeWhile Char.isDigit
        let r := cs1.dropWhile Char.isDigit
        if ds.isEmpty then Except.error ()
        else if ds.length > 1 && ds.headD '0' = '0' then Except.error ()
        else
          match r with
          | c2 :: _ =>
            if c2 = '.' || c2 = 'e' || c2 = 'E' then Except.error ()
            else Except.ok (Json.num (if neg then -(digitsToNat ds : Int) else (digitsToNat ds : Int)), r)
          | [] => Except.ok (Json.num (if neg then -(digitsToNat ds : Int) else (digitsToNat ds : Int)), r)

/-- Model of Python's `json.loads`: parse one JSON document, requiring only
whitespace to remain. -/
def jsonLoads (s : String) : Except Unit Json :=
  match jsonParse (s.length + 1) s.data with
  | Except.error _ => Except.error ()
  | Except.ok (v, rest) => if (skipJsonWs rest).isEmpty then Except.ok v else Except.error ()

-- ─── Python str() of parsed JSON values ──────────────────────────────────

mutual

/-- Python `repr()` of a parsed JSON value, used for the elements of
containers inside str() (string escaping inside repr is not modelled; no
claim depends on the repr of containers). -/
def pyRepr : Json → String
  | Json.null => "None"
  | Json.bool b => if b then "True" else "False"
  | Json.num n => toString n
  | Json.str s => "'" ++ s ++ "'"
  | Json.arr xs => "[" ++ pyReprSeq xs ++ "]"
  | Json.obj kvs => String.mk [charLBrace] ++ pyReprKvSeq kvs ++ String.mk [charRBrace]

/-- Comma-separated reprs of list elements. -/
def pyReprSeq : List Json → String
  | [] => ""
  | [x] => pyRepr x
  | x :: y :: rest => pyRepr x ++ ", " ++ pyReprSeq (y :: rest)

/-- Comma-separated reprs of dict entries. -/
def pyReprKvSeq : List (String × Json) → String
  | [] => ""
  | [(k, v)] => "'" ++ k ++ "': " ++ pyRepr v
  | (k, v) :: q :: rest => "'" ++ k ++ "': " ++ pyRepr v ++ ", " ++ pyReprKvSeq (q :: rest)

end

/-- Python `str()` of a parsed JSON value. -/
def pyStr : Json → String
  | Json.null => "None"
  | Json.bool b => if b then "True" else "False"
  | Json.num n => toString n
  | Json.str s => s
  | Json.arr xs => "[" ++ pyReprSeq xs ++ "]"
  | Json.obj kvs => String.mk [charLBrace] ++ pyReprKvSeq kvs ++ String.mk [charRBrace]

/-- Python `str()` where `None` (a missing dict value) prints as "None". -/
def pyStrOpt : Option Json → String
  | none => "None"
  | some j => pyStr j

-- ─── Dict access and the `in` operator ───────────────────────────────────

/-- Python `d.get(key)` on a parsed JSON object (association-list lookup;
`updateKv` keeps keys unique, so first match is the binding). -/
def lookupKv : List (String × Json) → String → Option Json
  | [], _ => none
  | (k, v) :: rest, key => if k == key then some v else lookupKv rest key

/-- Python `key in x` for a parsed JSON value `x`: key membership on dicts,
substring on strings, element equality on lists, and `TypeError` on the
non-container values `None`, booleans and numbers. -/
def pyContains (key : String) : Json → Except PyErr Bool
  | Json.obj kvs => Except.ok (kvs.any (fun kv => kv.1 == key))
  | Json.arr xs =>
    Except.ok (xs.any (fun x => match x with | Json.str s => s == key | _ => false))
  | Json.str s => Except.ok (infixB key.data s.data)
  | _ => Except.error PyErr.typeError

-- ─── Tool-call parser (agent.py lines 130-143) ───────────────────────────

def openTag : List Char := "<tool_call>".data
def closeTag : List Char := "</tool_call>".data

/-- Model of `re.search(r'<tool_call>\s*(.*?)\s*</tool_call>', response,
re.DOTALL)` returning the captured group: the text between the first
`<tool_call>` and the first `</tool_call>` after it, with surrounding
whitespace stripped (leftmost match, lazy inner group). -/
def extractToolCallRegion (s : String) : Option String :=
  match splitFirstAt openTag s.data with
  | none => none
  | some (_, afterOpen) =>
    match splitFirstAt closeTag afterOpen with
    | none => none
    | some (inner, _) => some (String.mk (pyStrip inner))

/-- _parse_tool_call from agent.py: extract the delimited region, parse it
with `json.loads` (a decode error is caught and yields `none`), then check
`"name" not in tool_call` — whose `TypeError` on non-container values is NOT
caught (the `except` clause only catches `json.JSONDecodeError`) and
propagates as `Except.error`. -/
def _parse_tool_call (response : String) : Except PyErr (Option Json) :=
  match extractToolCallRegion response with
  | none => Except.ok none
  | some inner =>
    match jsonLoads inner with
    | Except.error _ => Except.ok none
    | Except.ok v =>
      match pyContains "name" v with
      | Except.error e => Except.error e
      | Except.ok true => Except.ok (some v)
      | Except.ok false => Except.ok none

-- ─── Tool invoker (agent.py lines 145-160) ───────────────────────────────

/-- The generator `next((t for t in self.tools if t.name == tool_name), None)`:
first tool whose name equals the requested value (a string compares equal to
`t.name` only when it is that very string; any other JSON value or a missing
key compares unequal to every name). -/
def findTool (tools : List Tool) (tool_name : Option Json) : Option Tool :=
  tools.find? (fun t =>
    match tool_name with
    | some (Json.str s) => t.name == s
    | _ => false)

/-- _execute_tool from agent.py, on the parsed tool-call dict: read the name
and the parameters (defaulting to `{}`), look the tool up, and either report
"Error: Tool '<name>' not found", or call the handler, stringify its result,
and convert any exception `e` into "Error executing tool '<name>': str(e)". -/
def _execute_tool (tools : List Tool) (tool_call : List (String × Json)) : String :=
  let tool_name := lookupKv tool_call "name"
  let params := (lookupKv tool_call "parameters").getD (Json.obj [])
  match findTool tools tool_name with
  | none => "Error: Tool '" ++ pyStrOpt tool_name ++ "' not found"
  | some tool =>
    match tool.function params with
    | Except.ok result => result
    | Except.error e => "Error executing tool '" ++ pyStrOpt tool_name ++ "': " ++ e

-- ─── Prompt constants (config.py lines 56-82) ────────────────────────────

/-- GENERIC_SYSTEM_PROMPT from config.py, verbatim (an unformatted template:
the braces around agent_name / agent_description / custom_prompt are literal
characters of this constant). -/
def GENERIC_SYSTEM_PROMPT : String :=
  "You are \x7bagent_name\x7d. \x7bagent_description\x7d\n\n\x7bcustom_prompt\x7d"

/-- MAX_ITERATIONS_PROMPT from config.py, verbatim. -/
def MAX_ITERATIONS_PROMPT : String :=
  "\nYou have reached the maximum number of tool calls for this conversation.\nThe conversation history contains all the tool results gathered so far.\nBased on the information available, provide the best final answer you can to the user's question.\nDo NOT attempt to call any more tools. Just synthesize the information you have and respond directly.\n"

/-- TOOL_INSTRUCTIONS from config.py, pre-composed with its single
`{tool_descriptions}` placeholder (the doubled braces of the template render
as literal braces). -/
def TOOL_INSTRUCTIONS_fmt (tool_descriptions : String) : String :=
  "\nYou have access to the following tools that you MAY use when particularly relevant:\n\n"
  ++ tool_descriptions ++
  "\n\nTo call a tool, respond with EXACTLY this format:\n<tool_call>\n\x7b\"name\": \"tool_name\", \"parameters\": \x7b\"param1\": \"value1\", \"param2\": \"value2\"\x7d\x7d\n</tool_call>\n\nImportant guidelines:\n- Only use tools when they are specifically relevant and necessary to answer the user's question\n- You can respond directly without using any tools if you already have sufficient information\n- Only call ONE tool at a time and wait for its result before deciding the next step\n- If you need more information from the user to use a tool effectively, ask them first\n"

-- ─── Prompt assembly (agent.py lines 97-128) ─────────────────────────────

/-- _format_tool_description from agent.py.  Note the parenthesized word:
`required` is the string "(required)" or "(optional)" and is interpolated
after "{param_type}, ", producing lines like
`    - location (string, (required)): the city`. -/
def _format_tool_description (tool : Tool) : String :=
  let params_desc := tool.parameters.map (fun q =>
    "    - " ++ q.1 ++ " (" ++ q.2.type ++ ", " ++
      (if q.2.required then "(required)" else "(optional)") ++ "): " ++
      q.2.description.getD "")
  let params_str := if params_desc.isEmpty then "    (no parameters)" else joinSep "\n" params_desc
  "  " ++ tool.name ++ ": " ++ tool.description ++ "\n    Parameters:\n" ++ params_str

/-- _build_system_prompt from agent.py.  The base prompt is
`GENERIC_SYSTEM_PROMPT.format(...)` unfolded on its template
"You are {agent_name}. {agent_description}\n\n{custom_prompt}", then
stripped; with a non-empty registry the formatted TOOL_INSTRUCTIONS section
is appended. -/
def _build_system_prompt (a : Agent) : String :=
  let base_prompt := pyStripStr ("You are " ++ a.agent_name ++ ". " ++
    a.agent_description ++ "\n\n" ++ a.custom_system_prompt)
  if a.tools.isEmpty then base_prompt
  else
    base_prompt ++ "\n\n" ++
      TOOL_INSTRUCTIONS_fmt (joinSep "\n\n" (a.tools.map _format_tool_description))

-- ─── The agent loop (agent.py lines 263-309) ─────────────────────────────

/-- A heap of Python message lists; a list-valued variable is an index into
the store, so aliasing and in-place mutation are expressible. -/
abbrev Store := List (List Message)

/-- Read the list object at index `i`. -/
def store_get (st : Store) (i : Nat) : List Message := st.getD i []

/-- Overwrite the list object at index `i`. -/
def store_set (st : Store) (i : Nat) (l : List Message) : Store := st.set i l

/-- `lst.append(m)` on the list object at index `i`. -/
def store_append (st : Store) (i : Nat) (m : Message) : Store :=
  store_set st i (store_get st i ++ [m])

/-- `lst.insert(0, m)` on the list object at index `i`. -/
def store_insert0 (st : Store) (i : Nat) (m : Message) : Store :=
  store_set st i (m :: store_get st i)

/-- Lines 303-307: drop every system message from the history and prepend the
forced-final-answer system message, whose content is the RAW (unformatted)
GENERIC_SYSTEM_PROMPT concatenated with MAX_ITERATIONS_PROMPT. -/
def budgetMessages (history : List Message) : List Message :=
  Message.mk Role.system (GENERIC_SYSTEM_PROMPT ++ "\n\n" ++ MAX_ITERATIONS_PROMPT) none ::
    history.filter (fun m => m.role != Role.system)

/-- The `for iteration in range(self.max_iterations)` loop of `run` (lines
275-309), with `fuel` the remaining iterations and `callIdx` the number of
model calls issued so far.  Each iteration calls the model, parses the reply
(a parse exception propagates), and either returns the reply as the final
assistant message, or appends a tool_call message, executes the tool, appends
the tool_result message and continues.  `tool_call["name"]` on a parsed
non-dict value raises `TypeError`; on a dict it cannot fail because the
parser guaranteed the key.  When the fuel is exhausted the forced final model
call is issued on `budgetMessages` and its text returned unconditionally. -/
def runLoop (a : Agent) (gw : Nat → List Message → String) :
    Nat → Nat → Store → Nat → Store × Except PyErr Message
  | 0, callIdx, st, internal =>
    (st, Except.ok (Message.mk Role.assistant
      (gw callIdx (budgetMessages (store_get st internal))) none))
  | fuel+1, callIdx, st, internal =>
    let response := gw callIdx (store_get st internal)
    match _parse_tool_call response with
    | Except.error e => (st, Except.error e)
    | Except.ok none => (st, Except.ok (Message.mk Role.assistant response none))
    | Except.ok (some (Json.obj kvs)) =>
      match lookupKv kvs "name" with
      | none => (st, Except.error PyErr.keyError)
      | some nv =>
        let st1 := store_append st internal (Message.mk Role.tool_call response (some nv))
        let st2 := store_append st1 internal
          (Message.mk Role.tool_result (_execute_tool a.tools kvs) (some nv))
        runLoop a gw fuel (callIdx+1) st2 internal
    | Except.ok (some _) => (st, Except.error PyErr.typeError)

/-- `run` from agent.py.  The caller's history is the list object at index
`r` of the store; `internal_messages = messages.copy()` allocates a fresh
list object (index `st.length`), the system prompt is inserted into that
copy when tools exist, and the loop runs on the copy. -/
def run (a : Agent) (gw : Nat → List Message → String) (st : Store) (r : Nat) :
    Store × Except PyErr Message :=
  let st1 := st ++ [store_get st r]
  let internal := st.length
  let st2 := if a.tools.isEmpty then st1
    else store_insert0 st1 internal (Message.mk Role.system (_build_system_prompt a) none)
  runLoop a gw a.max_iterations 0 st2 internal

/-- The private history of a `run` call just before its first model call:
the copy of the caller's messages, preceded by the system prompt when tools
are registered. -/
def initialInternal (a : Agent) (msgs : List Message) : List Message :=
  if a.tools.isEmpty then msgs
  else Message.mk Role.system (_build_system_prompt a) none :: msgs

/-- Flatten a list of (tool_call, tool_result) message pairs. -/
def pairsFlat : List (Message × Message) → List Message
  | [] => []
  | p :: ps => p.1 :: p.2 :: pairsFlat ps

-- ─── Concrete fixtures (mirroring the demo tools of chat.py) ─────────────

/-- The get_weather tool of the demo, with a deterministic handler. -/
def weatherTool : Tool :=
  { name := "get_weather"
    description := "Get current weather conditions for any location"
    parameters := [("location",
      { type := "string", required := true,
        description := some "The location to get weather for" })]
    function := fun _ => Except.ok "Weather in Tokyo: 72F, sunny" }

/-- The divide_by_secret_number tool of the demo, whose handler divides by
zero and therefore always raises. -/
def divideTool : Tool :=
  { name := "divide_by_secret_number"
    description := "Divides a number by a secret number and returns the result"
    parameters := [("numerator",
      { type := "number", required := true,
        description := some "The number to be divided" })]
    function := fun _ => Except.error "division by zero" }

/-- A second tool deliberately sharing a registered name. -/
def dupToolA : Tool :=
  { name := "dup", description := "first registered", parameters := []
    function := fun _ => Except.ok "first result" }

def dupToolB : Tool :=
  { name := "dup", description := "second registered", parameters := []
    function := fun _ => Except.ok "second result" }

/-- A demo agent with the two tools and a configurable iteration budget. -/
def demoAgent (N : Nat) : Agent :=
  { agent_name := "Travel Assistant"
    agent_description := "A helpful travel planning assistant."
    custom_system_prompt := "Your goal is to be as helpful as possible to the user."
    tools := [weatherTool, divideTool]
    max_iterations := N }

def userMsg : Message := { role := Role.user, content := "What is the weather in Tokyo?" }

def weatherCallText : String :=
  "<tool_call>\x7b\"name\": \"get_weather\", \"parameters\": \x7b\"location\": \"Tokyo\"\x7d\x7d</tool_call>"

def divideCallText : String :=
  "<tool_call>\x7b\"name\": \"divide_by_secret_number\", \"parameters\": \x7b\"numerator\": 17\x7d\x7d</tool_call>"

def missingCallText : String :=
  "<tool_call>\x7b\"name\": \"get_time\"\x7d</tool_call>"

/-- Gateway stub that emits a valid tool-call directive on every call,
including the forced final one. -/
def gwAlwaysCall : Nat → List Message → String := fun _ _ => weatherCallText

/-- Gateway stub: a tool call first, then plain text. -/
def gwCallThenDone : Nat → List Message → String := fun i _ =>
  if i = 0 then weatherCallText else "The weather in Tokyo is sunny."

/-- Gateway stub: a call to the raising tool first, then plain text. -/
def gwDivideThenDone : Nat → List Message → String := fun i _ =>
  if i = 0 then divideCallText else "It failed."

/-- Gateway stub: a call to an unregistered tool first, then plain text. -/
def gwMissingThenDone : Nat → List Message → String := fun i _ =>
  if i = 0 then missingCallText else "No such tool."

/-- Gateway stub that always answers with the same plain text. -/
def gwPlain : Nat → List Message → String := fun _ _ => "Hello! How can I help?"

-- ─── List lemmas for the store model ─────────────────────────────────────

lemma getD_set_self {α : Type} (l : List α) (i : Nat) (x d : α) (h : i < l.length) :
    (l.set i x).getD i d = x := by
  induction l generalizing i with
  | nil => simp at h
  | cons a l ih =>
    cases i with
    | zero => rfl
    | succ i => exact ih i (by simpa using h)

lemma getD_set_ne {α : Type} (l : List α) (i j : Nat) (x d : α) (h : i ≠ j) :
    (l.set i x).getD j d = l.getD j d := by
  induction l generalizing i j with
  | nil => rfl
  | cons a l ih =>
    cases i with
    | zero =>
      cases j with
      | zero => exact absurd rfl h
      | succ j => rfl
    | succ i =>
      cases j with
      | zero => rfl
      | succ j => simpa [List.getD_cons_succ] using ih i j (fun e => h (by rw [e]))

lemma set_getD_self {α : Type} (l : List α) (i : Nat) (d : α) (h : i < l.length) :
    l.set i (l.getD i d) = l := by
  induction l generalizing i with
  | nil => rfl
  | cons a l ih =>
    cases i with
    | zero => rfl
    | succ i => simpa using ih i (by simpa using h)

lemma getD_append_length {α : Type} (l : List α) (x d : α) :
    (l ++ [x]).getD l.length d = x := by
  induction l with
  | nil => rfl
  | cons a l ih => simp [ih]

lemma set_append_length {α : Type} (l : List α) (x y : α) :
    (l ++ [x]).set l.length y = l ++ [y] := by
  induction l with
  | nil => rfl
  | cons a l ih => simp [ih]

-- ─── Store lemmas ────────────────────────────────────────────────────────

lemma store_get_append_self (st : Store) (l : List Message) :
    store_get (st ++ [l]) st.length = l := getD_append_length st l []

lemma store_set_append_self (st : Store) (l l' : List Message) :
    store_set (st ++ [l]) st.length l' = st ++ [l'] := set_append_length st l l'

lemma store_get_set_self (st : Store) (i : Nat) (l : List Message) (h : i < st.length) :
    store_get (store_set st i l) i = l := getD_set_self st i l [] h

lemma store_get_set_ne (st : Store) (i j : Nat) (l : List Message) (h : i ≠ j) :
    store_get (store_set st i l) j = store_get st j := getD_set_ne st i j l [] h

lemma store_get_append_ne (st : Store) (i j : Nat) (m : Message) (h : i ≠ j) :
    store_get (store_append st i m) j = store_get st j :=
  store_get_set_ne st i j _ h

lemma length_store_append (st : Store) (i : Nat) (m : Message) :
    (store_append st i m).length = st.length := List.length_set st i _

lemma store_get_append_eq (st : Store) (i : Nat) (m : Message) (h : i < st.length) :
    store_get (store_append st i m) i = store_get st i ++ [m] :=
  store_get_set_self st i _ h

lemma store_set_set (st : Store) (i : Nat) (l l' : List Message) :
    store_set (store_set st i l) i l' = store_set st i l' := List.set_set l l' st i

lemma store_set_get_self (st : Store) (i : Nat) (h : i < st.length) :
    store_set st i (store_get st i) = st := set_getD_self st i [] h

-- ─── Parser inversion lemmas ─────────────────────────────────────────────

lemma lookupKv_of_any {kvs : List (String × Json)} {key : String}
    (h : kvs.any (fun kv => kv.1 == key) = true) : ∃ v, lookupKv kvs key = some v := by
  induction kvs with
  | nil => simp at h
  | cons kv rest ih =>
    by_cases hk : kv.1 == key
    · exact ⟨kv.2, by simp [lookupKv, hk]⟩
    · have : rest.any (fun kv => kv.1 == key) = true := by
        simpa [List.any_cons, hk] using h
      obtain ⟨v, hv⟩ := ih this
      exact ⟨v, by simpa [lookupKv, hk] using hv⟩

/-- A successful parse of an object-shaped tool call guarantees the "name"
key is present (the source checked `"name" not in tool_call`). -/
lemma parse_some_obj_name {s : String} {kvs : List (String × Json)}
    (h : _parse_tool_call s = Except.ok (some (Json.obj kvs))) :
    ∃ v, lookupKv kvs "name" = some v := by
  unfold _parse_tool_call at h
  split at h
  · simp at h
  · split at h
    · simp at h
    · split at h
      · simp at h
      · rename_i v hpc
        simp only [Except.ok.injEq, Option.some.injEq] at h
        subst h
        refine lookupKv_of_any ?_
        have : Except.ok (kvs.any (fun kv => kv.1 == "name")) =
            (Except.ok true : Except PyErr Bool) := hpc
        simpa using this
      · simp at h

-- ─── Loop unfolding lemmas ───────────────────────────────────────────────

lemma runLoop_zero (a : Agent) (gw : Nat → List Message → String)
    (callIdx : Nat) (st : Store) (internal : Nat) :
    runLoop a gw 0 callIdx st internal =
      (st, Except.ok (Message.mk Role.assistant
        (gw callIdx (budgetMessages (store_get st internal))) none)) := rfl

lemma runLoop_done {a : Agent} {gw : Nat → List Message → String}
    {fuel callIdx : Nat} {st : Store} {internal : Nat}
    (hp : _parse_tool_call (gw callIdx (store_get st internal)) = Except.ok none) :
    runLoop a gw (fuel+1) callIdx st internal =
      (st, Except.ok (Message.mk Role.assistant (gw callIdx (store_get st internal)) none)) := by
  simp [runLoop, hp]

lemma runLoop_step {a : Agent} {gw : Nat → List Message → String}
    {fuel callIdx : Nat} {st : Store} {internal : Nat}
    {kvs : List (String × Json)} {nv : Json}
    (hp : _parse_tool_call (gw callIdx (store_get st internal)) =
      Except.ok (some (Json.obj kvs)))
    (hn : lookupKv kvs "name" = some nv) :
    runLoop a gw (fuel+1) callIdx st internal =
      runLoop a gw fuel (callIdx+1)
        (store_append
          (store_append st internal
            (Message.mk Role.tool_call (gw callIdx (store_get st internal)) (some nv)))
          internal
          (Message.mk Role.tool_result (_execute_tool a.tools kvs) (some nv)))
        internal := by
  simp [runLoop, hp, hn]

/-- `run` reduces to the loop on the store extended with the private copy
(system prompt already inserted when tools exist). -/
lemma run_eq_runLoop (a : Agent) (gw : Nat → List Message → String)
    (st : Store) (r : Nat) :
    run a gw st r =
      runLoop a gw a.max_iterations 0
        (st ++ [initialInternal a (store_get st r)]) st.length := by
  unfold run initialInternal
  cases h : a.tools.isEmpty with
  | true => simp [h]
  | false =>
    simp only [h, Bool.false_eq_true, if_false, store_insert0]
    rw [store_get_append_self, store_set_append_self]

-- ─── Frame lemma: the loop only writes the internal list ─────────────────

lemma runLoop_frame (a : Agent) (gw : Nat → List Message → String) :
    ∀ (fuel callIdx : Nat) (st : Store) (internal j : Nat), j ≠ internal →
      store_get (runLoop a gw fuel callIdx st internal).1 j = store_get st j := by
  intro fuel
  induction fuel with
  | zero => intro callIdx st internal j _; rfl
  | succ n ih =>
    intro callIdx st internal j hj
    cases hp : _parse_tool_call (gw callIdx (store_get st internal)) with
    | error e => simp [runLoop, hp]
    | ok o =>
      cases o with
      | none => simp [runLoop, hp]
      | some v =>
        cases v with
        | null => simp [runLoop, hp]
        | bool b => simp [runLoop, hp]
        | num m => simp [runLoop, hp]
        | str s => simp [runLoop, hp]
        | arr xs => simp [runLoop, hp]
        | obj kvs =>
          cases hn : lookupKv kvs "name" with
          | none => simp [runLoop, hp, hn]
          | some nv =>
            rw [runLoop_step hp hn, ih]
            rw [store_get_append_ne _ _ _ _ (fun e => hj e.symm),
              store_get_append_ne _ _ _ _ (fun e => hj e.symm)]
            exact hj

lemma store_append2 (st : Store) (i : Nat) (m1 m2 : Message) (h : i < st.length) :
    store_append (store_append st i m1) i m2 =
      store_set st i (store_get st i ++ [m1, m2]) := by
  unfold store_append
  rw [store_get_set_self st i _ h, store_set_set, List.append_assoc]
  rfl

/-- Master lemma: while every model reply parses as an object-shaped tool
call, each loop iteration appends exactly one tool_call/tool_result pair to
the internal list, and after the fuel runs out the forced final call is
issued on the stripped history with the fixed system message prepended. -/
lemma runLoop_always (a : Agent) (gw : Nat → List Message → String) :
    ∀ (fuel callIdx : Nat) (st : Store) (internal : Nat),
      internal < st.length →
      (∀ i ms, i < fuel → ∃ kvs, _parse_tool_call (gw (callIdx + i) ms) =
        Except.ok (some (Json.obj kvs))) →
      ∃ pairs : List (Message × Message),
        pairs.length = fuel ∧
        (∀ p ∈ pairs, p.1.role = Role.tool_call ∧ p.2.role = Role.tool_result) ∧
        runLoop a gw fuel callIdx st internal =
          (store_set st internal (store_get st internal ++ pairsFlat pairs),
           Except.ok (Message.mk Role.assistant
             (gw (callIdx + fuel)
               (budgetMessages (store_get st internal ++ pairsFlat pairs))) none)) := by
  intro fuel
  induction fuel with
  | zero =>
    intro callIdx st internal hlen _
    refine ⟨[], rfl, by simp, ?_⟩
    rw [runLoop_zero]
    simp [pairsFlat, store_set_get_self st internal hlen]
  | succ n ih =>
    intro callIdx st internal hlen hgw
    obtain ⟨kvs, hp⟩ := hgw 0 (store_get st internal) (Nat.succ_pos n)
    rw [Nat.add_zero] at hp
    obtain ⟨nv, hn⟩ := parse_some_obj_name hp
    rw [runLoop_step hp hn, store_append2 _ _ _ _ hlen]
    have hlen2 : internal < (store_set st internal (store_get st internal ++
        [Message.mk Role.tool_call (gw callIdx (store_get st internal)) (some nv),
         Message.mk Role.tool_result (_execute_tool a.tools kvs) (some nv)])).length := by
      unfold store_set
      rw [List.length_set]
      exact hlen
    have hgw2 : ∀ i ms, i < n → ∃ kvs2, _parse_tool_call (gw (callIdx + 1 + i) ms) =
        Except.ok (some (Json.obj kvs2)) := by
      intro i ms hi
      have h2 := hgw (i+1) ms (by omega)
      rwa [show callIdx + (i+1) = callIdx + 1 + i by omega] at h2
    obtain ⟨pairs, hplen, hroles, heq⟩ := ih (callIdx+1)
      (store_set st internal (store_get st internal ++
        [Message.mk Role.tool_call (gw callIdx (store_get st internal)) (some nv),
         Message.mk Role.tool_result (_execute_tool a.tools kvs) (some nv)]))
      internal hlen2 hgw2
    refine ⟨(Message.mk Role.tool_call (gw callIdx (store_get st internal)) (some nv),
             Message.mk Role.tool_result (_execute_tool a.tools kvs) (some nv)) :: pairs,
      by simp [hplen], ?_, ?_⟩
    · intro p hmem
      rcases List.mem_cons.mp hmem with h | h
      · subst h; exact ⟨rfl, rfl⟩
      · exact hroles p h
    · rw [heq, store_set_set, store_get_set_self _ _ _ hlen]
      have hidx : callIdx + 1 + n = callIdx + (n + 1) := by omega
      rw [hidx, List.append_assoc]
      rfl

-- ─── Substring lemmas ────────────────────────────────────────────────────

lemma infixB_iff (n : List Char) : ∀ h : List Char, (infixB n h = true ↔ n <:+: h)
  | [] => by simp [infixB, List.isEmpty_iff]
  | c :: hs => by
    simp [infixB, Bool.or_eq_true, List.isPrefixOf_iff_prefix, infixB_iff n hs,
      List.infix_cons_iff]

lemma containsStr_iff (hay needle : String) :
    containsStr hay needle = true ↔ needle.data <:+: hay.data := infixB_iff _ _

lemma strInfix_append_right {n : List Char} (s t : String) (h : n <:+: s.data) :
    n <:+: (s ++ t).data := by
  rw [String.data_append]
  exact h.trans (List.prefix_append s.data t.data).isInfix

lemma strInfix_append_left {n : List Char} (s t : String) (h : n <:+: t.data) :
    n <:+: (s ++ t).data := by
  rw [String.data_append]
  exact h.trans (List.suffix_append s.data t.data).isInfix

lemma mem_joinSep {s : String} (sep : String) :
    ∀ l : List String, s ∈ l → s.data <:+: (joinSep sep l).data
  | [], h => by simp at h
  | [x], h => by
    rcases List.mem_singleton.mp h with rfl
    exact List.infix_refl _
  | x :: y :: rest, h => by
    rcases List.mem_cons.mp h with rfl | h2
    · show s.data <:+: (s ++ sep ++ joinSep sep (y :: rest)).data
      exact strInfix_append_right _ _ (strInfix_append_right _ _ (List.infix_refl _))
    · exact strInfix_append_left _ _ (mem_joinSep sep (y :: rest) h2)

-- ─── Claim theorems ──────────────────────────────────────────────────────

/-- C3 (code incident): the claim says malformed tool-call directives never
raise and are treated as "no call", but for the directive region `42` —
which json.loads accepts as the number 42 — the membership test
`"name" not in 42` raises an uncaught TypeError (only json.JSONDecodeError
is caught), so `_parse_tool_call` (and hence `run`) raises. -/
theorem parse_scalar_directive_raises :
    _parse_tool_call "<tool_call>42</tool_call>" = Except.error PyErr.typeError ∧
    _parse_tool_call "<tool_call>null</tool_call>" = Except.error PyErr.typeError ∧
    _parse_tool_call "<tool_call>not a json object</tool_call>" = Except.ok none ∧
    _parse_tool_call "no directive here" = Except.ok none :=
  ⟨rfl, rfl, rfl, rfl⟩

/-- C9: on the budget-exhausted path the prepended system message's content
is the raw concatenation `GENERIC_SYSTEM_PROMPT + "\n\n" + MAX_ITERATIONS_PROMPT`
of the two config constants — the template is NOT formatted, so the literal
placeholders `{agent_name}`, `{agent_description}` and `{custom_prompt}`
remain in the text, and the content is the same constant for every agent
configuration. -/
theorem budget_system_message_unformatted (a : Agent)
    (gw : Nat → List Message → String) (callIdx : Nat) (st : Store) (internal : Nat) :
    runLoop a gw 0 callIdx st internal =
      (st, Except.ok (Message.mk Role.assistant
        (gw callIdx (Message.mk Role.system
            (GENERIC_SYSTEM_PROMPT ++ "\n\n" ++ MAX_ITERATIONS_PROMPT) none ::
          (store_get st internal).filter (fun m => m.role != Role.system))) none)) ∧
    containsStr (GENERIC_SYSTEM_PROMPT ++ "\n\n" ++ MAX_ITERATIONS_PROMPT)
      "You are \x7bagent_name\x7d. \x7bagent_description\x7d" = true ∧
    containsStr (GENERIC_SYSTEM_PROMPT ++ "\n\n" ++ MAX_ITERATIONS_PROMPT)
      "\x7bcustom_prompt\x7d" = true :=
  ⟨rfl, by decide, by decide⟩

/-- C5: `run` never mutates the caller-supplied history list: after the
call, the caller's list object (index `r` of the store) holds exactly the
same message list as before — all insertion and appending happened on the
private copy allocated at index `st.length`. -/
theorem run_preserves_caller_history (a : Agent) (gw : Nat → List Message → String)
    (st : Store) (r : Nat) (hr : r < st.length) :
    store_get (run a gw st r).1 r = store_get st r := by
  rw [run_eq_runLoop]
  rw [runLoop_frame a gw _ 0 _ st.length r (by omega)]
  exact List.getD_append st [initialInternal a (store_get st r)] [] r hr

/-- C5 witness at a concrete run that executes a tool and finishes. -/
theorem run_preserves_caller_history_witness :
    0 < ([[userMsg]] : Store).length ∧
    store_get (run (demoAgent 2) gwCallThenDone [[userMsg]] 0).1 0 =
      store_get [[userMsg]] 0 :=
  ⟨by decide, run_preserves_caller_history (demoAgent 2) gwCallThenDone [[userMsg]] 0 (by decide)⟩

/-- C6: when the first model reply contains no well-formed tool_call block,
`run` returns after that single model call with the raw reply text as an
assistant message, and the final store shows the private history unchanged
(nothing further was appended); determinism of the embedding gives the
idempotence reading directly. -/
theorem run_plain_text_single_call (a : Agent) (gw : Nat → List Message → String)
    (st : Store) (r : Nat) (h1 : 1 ≤ a.max_iterations)
    (hp : _parse_tool_call (gw 0 (initialInternal a (store_get st r))) = Except.ok none) :
    run a gw st r =
      (st ++ [initialInternal a (store_get st r)],
       Except.ok (Message.mk Role.assistant
         (gw 0 (initialInternal a (store_get st r))) none)) := by
  rw [run_eq_runLoop]
  obtain ⟨k, hk⟩ : ∃ k, a.max_iterations = k + 1 := ⟨a.max_iterations - 1, by omega⟩
  rw [hk]
  have hp2 : _parse_tool_call
      (gw 0 (store_get (st ++ [initialInternal a (store_get st r)]) st.length)) =
      Except.ok none := by
    rw [store_get_append_self]; exact hp
  rw [runLoop_done hp2, store_get_append_self]

/-- C6 witness with the constant plain-text gateway stub. -/
theorem run_plain_text_single_call_witness :
    1 ≤ (demoAgent 2).max_iterations ∧
    run (demoAgent 2) gwPlain [[userMsg]] 0 =
      ([[userMsg], initialInternal (demoAgent 2) (store_get [[userMsg]] 0)],
       Except.ok (Message.mk Role.assistant "Hello! How can I help?" none)) :=
  ⟨by decide, run_plain_text_single_call (demoAgent 2) gwPlain [[userMsg]] 0 (by decide) rfl⟩

lemma findTool_append_first (pre : List Tool) (t1 : Tool) (post : List Tool)
    (nm : String) (hpre : ∀ t ∈ pre, t.name ≠ nm) (h1 : t1.name = nm) :
    findTool (pre ++ t1 :: post) (some (Json.str nm)) = some t1 := by
  induction pre with
  | nil =>
    show List.find? _ (t1 :: post) = some t1
    exact List.find?_cons_of_pos _ (by simp [h1])
  | cons a pre ih =>
    rw [List.cons_append]
    show List.find? _ (a :: (pre ++ t1 :: post)) = some t1
    rw [List.find?_cons_of_neg _ (by simp [hpre a (List.mem_cons_self a pre)])]
    exact ih (fun t htl => hpre t (List.mem_cons_of_mem a htl))

/-- C10: with duplicate registered names, `_execute_tool` dispatches to the
first tool of that name in registration order — the result is exactly what a
registry containing only that first tool would produce, so later same-named
tools can never be invoked. -/
theorem duplicate_tool_first_wins (pre : List Tool) (t1 : Tool) (post : List Tool)
    (kvs : List (String × Json)) (nm : String)
    (hn : lookupKv kvs "name" = some (Json.str nm))
    (hpre : ∀ t ∈ pre, t.name ≠ nm) (h1 : t1.name = nm) :
    _execute_tool (pre ++ t1 :: post) kvs = _execute_tool [t1] kvs := by
  unfold _execute_tool
  rw [hn]
  dsimp only
  have h2 : findTool [t1] (some (Json.str nm)) = some t1 := by
    simpa using findTool_append_first [] t1 [] nm (by simp) h1
  rw [findTool_append_first pre t1 post nm hpre h1, h2]

/-- C10 witness: two tools named "dup"; the registry [dupToolA, dupToolB]
behaves exactly like [dupToolA], returning the first handler's result. -/
theorem duplicate_tool_first_wins_witness :
    _execute_tool ([] ++ dupToolA :: [dupToolB]) [("name", Json.str "dup")] =
      _execute_tool [dupToolA] [("name", Json.str "dup")] ∧
    _execute_tool [dupToolA, dupToolB] [("name", Json.str "dup")] = "first result" :=
  ⟨duplicate_tool_first_wins [] dupToolA [dupToolB] [("name", Json.str "dup")] "dup"
      rfl (by simp) rfl,
    rfl⟩

/-- C1: when the model requests a registered tool whose handler raises, the
invoker returns exactly "Error executing tool '<name>': <message>"; that
string becomes the content of the appended tool_result message, and `run`
finishes normally (no exception escapes). -/
theorem execute_error_contained (a : Agent) (gw : Nat → List Message → String)
    (st : Store) (r : Nat) (kvs : List (String × Json)) (nm msg : String) (t : Tool)
    (h2 : 2 ≤ a.max_iterations)
    (hp : _parse_tool_call (gw 0 (initialInternal a (store_get st r))) =
      Except.ok (some (Json.obj kvs)))
    (hn : lookupKv kvs "name" = some (Json.str nm))
    (ht : findTool a.tools (some (Json.str nm)) = some t)
    (he : t.function ((lookupKv kvs "parameters").getD (Json.obj [])) = Except.error msg)
    (hdone : ∀ ms, _parse_tool_call (gw 1 ms) = Except.ok none) :
    _execute_tool a.tools kvs = "Error executing tool '" ++ nm ++ "': " ++ msg ∧
    run a gw st r =
      (st ++ [initialInternal a (store_get st r) ++
         [Message.mk Role.tool_call (gw 0 (initialInternal a (store_get st r)))
            (some (Json.str nm)),
          Message.mk Role.tool_result ("Error executing tool '" ++ nm ++ "': " ++ msg)
            (some (Json.str nm))]],
       Except.ok (Message.mk Role.assistant
         (gw 1 (initialInternal a (store_get st r) ++
           [Message.mk Role.tool_call (gw 0 (initialInternal a (store_get st r)))
              (some (Json.str nm)),
            Message.mk Role.tool_result ("Error executing tool '" ++ nm ++ "': " ++ msg)
              (some (Json.str nm))])) none)) := by
  have hexec : _execute_tool a.tools kvs = "Error executing tool '" ++ nm ++ "': " ++ msg := by
    unfold _execute_tool
    rw [hn]
    dsimp only
    rw [ht]
    dsimp only
    rw [he]
    rfl
  refine ⟨hexec, ?_⟩
  rw [run_eq_runLoop]
  obtain ⟨k, hk⟩ : ∃ k, a.max_iterations = (k + 1) + 1 := ⟨a.max_iterations - 2, by omega⟩
  rw [hk]
  have hp2 : _parse_tool_call
      (gw 0 (store_get (st ++ [initialInternal a (store_get st r)]) st.length)) =
      Except.ok (some (Json.obj kvs)) := by
    rw [store_get_append_self]; exact hp
  rw [runLoop_step hp2 hn]
  have hlen0 : st.length < (st ++ [initialInternal a (store_get st r)]).length := by simp
  rw [store_append2 _ _ _ _ hlen0, store_get_append_self, store_set_append_self, hexec]
  have hp3 : _parse_tool_call (gw (0+1) (store_get
      (st ++ [initialInternal a (store_get st r) ++
        [Message.mk Role.tool_call (gw 0 (initialInternal a (store_get st r)))
           (some (Json.str nm)),
         Message.mk Role.tool_result ("Error executing tool '" ++ nm ++ "': " ++ msg)
           (some (Json.str nm))]]) st.length)) = Except.ok none := hdone _
  rw [runLoop_done hp3, store_get_append_self]

/-- C1 witness: the divide_by_secret_number demo tool raises; `run` absorbs
the failure and the second model call produces the final answer. -/
theorem execute_error_contained_witness :
    _execute_tool (demoAgent 2).tools
      [("name", Json.str "divide_by_secret_number"),
       ("parameters", Json.obj [("numerator", Json.num 17)])] =
      "Error executing tool 'divide_by_secret_number': division by zero" ∧
    (run (demoAgent 2) gwDivideThenDone [[userMsg]] 0).2 =
      Except.ok (Message.mk Role.assistant "It failed." none) := by
  have h := execute_error_contained (demoAgent 2) gwDivideThenDone [[userMsg]] 0
    [("name", Json.str "divide_by_secret_number"),
     ("parameters", Json.obj [("numerator", Json.num 17)])]
    "divide_by_secret_number" "division by zero" divideTool
    (by decide) rfl rfl rfl rfl (fun ms => rfl)
  exact ⟨h.1, by rw [h.2]; rfl⟩

/-- C4 counterexample: the tool_result content for an unregistered tool is
"Error: Tool '<name>' not found" — it is NOT equal to the claimed exact
string "Tool '<name>' not found" (the "Error: " prefix is part of it). -/
theorem tool_not_found_exact_string_cex :
    _execute_tool (demoAgent 2).tools [("name", Json.str "get_time")] =
      "Error: Tool 'get_time' not found" ∧
    _execute_tool (demoAgent 2).tools [("name", Json.str "get_time")] ≠
      "Tool 'get_time' not found" :=
  ⟨rfl, by decide⟩

/-- C4 (amended): for a parsed tool-call whose name matches no registered
tool, nothing is raised, the appended tool_result content is exactly
"Error: Tool '<name>' not found" (with str() of the requested name value),
and the loop proceeds to the next model call. -/
theorem tool_not_found_message (a : Agent) (gw : Nat → List Message → String)
    (st : Store) (r : Nat) (kvs : List (String × Json)) (nv : Json)
    (h2 : 2 ≤ a.max_iterations)
    (hp : _parse_tool_call (gw 0 (initialInternal a (store_get st r))) =
      Except.ok (some (Json.obj kvs)))
    (hn : lookupKv kvs "name" = some nv)
    (hf : findTool a.tools (some nv) = none)
    (hdone : ∀ ms, _parse_tool_call (gw 1 ms) = Except.ok none) :
    _execute_tool a.tools kvs = "Error: Tool '" ++ pyStr nv ++ "' not found" ∧
    run a gw st r =
      (st ++ [initialInternal a (store_get st r) ++
         [Message.mk Role.tool_call (gw 0 (initialInternal a (store_get st r))) (some nv),
          Message.mk Role.tool_result ("Error: Tool '" ++ pyStr nv ++ "' not found")
            (some nv)]],
       Except.ok (Message.mk Role.assistant
         (gw 1 (initialInternal a (store_get st r) ++
           [Message.mk Role.tool_call (gw 0 (initialInternal a (store_get st r))) (some nv),
            Message.mk Role.tool_result ("Error: Tool '" ++ pyStr nv ++ "' not found")
              (some nv)])) none)) := by
  have hexec : _execute_tool a.tools kvs = "Error: Tool '" ++ pyStr nv ++ "' not found" := by
    unfold _execute_tool
    rw [hn]
    dsimp only
    rw [hf]
    rfl
  refine ⟨hexec, ?_⟩
  rw [run_eq_runLoop]
  obtain ⟨k, hk⟩ : ∃ k, a.max_iterations = (k + 1) + 1 := ⟨a.max_iterations - 2, by omega⟩
  rw [hk]
  have hp2 : _parse_tool_call
      (gw 0 (store_get (st ++ [initialInternal a (store_get st r)]) st.length)) =
      Except.ok (some (Json.obj kvs)) := by
    rw [store_get_append_self]; exact hp
  rw [runLoop_step hp2 hn]
  have hlen0 : st.length < (st ++ [initialInternal a (store_get st r)]).length := by simp
  rw [store_append2 _ _ _ _ hlen0, store_get_append_self, store_set_append_self, hexec]
  have hp3 : _parse_tool_call (gw (0+1) (store_get
      (st ++ [initialInternal a (store_get st r) ++
        [Message.mk Role.tool_call (gw 0 (initialInternal a (store_get st r))) (some nv),
         Message.mk Role.tool_result ("Error: Tool '" ++ pyStr nv ++ "' not found")
           (some nv)]]) st.length)) = Except.ok none := hdone _
  rw [runLoop_done hp3, store_get_append_self]

/-- C4 witness: a request for the unregistered "get_time" tool. -/
theorem tool_not_found_message_witness :
    _execute_tool (demoAgent 2).tools [("name", Json.str "get_time")] =
      "Error: Tool '" ++ pyStr (Json.str "get_time") ++ "' not found" ∧
    (run (demoAgent 2) gwMissingThenDone [[userMsg]] 0).2 =
      Except.ok (Message.mk Role.assistant "No such tool." none) := by
  have h := tool_not_found_message (demoAgent 2) gwMissingThenDone [[userMsg]] 0
    [("name", Json.str "get_time")] (Json.str "get_time")
    (by decide) rfl rfl rfl (fun ms => rfl)
  exact ⟨h.1, by rw [h.2]; rfl⟩

/-- C2: with `max_iterations = N` and a gateway whose first N replies all
parse as tool calls, `run` executes exactly N tools — the final private
history is the initial one plus exactly N (tool_call, tool_result) pairs —
then issues exactly one extra forced call (the model call with index N) and
returns its text as the assistant message unconditionally (no constraint is
placed on that final text: it may itself contain a tool-call block). -/
theorem run_budget_tool_executions (a : Agent) (gw : Nat → List Message → String)
    (st : Store) (r N : Nat) (hN : a.max_iterations = N) (_h1 : 1 ≤ N)
    (hgw : ∀ i ms, i < N → ∃ kvs, _parse_tool_call (gw i ms) =
      Except.ok (some (Json.obj kvs))) :
    ∃ pairs : List (Message × Message),
      pairs.length = N ∧
      (∀ p ∈ pairs, p.1.role = Role.tool_call ∧ p.2.role = Role.tool_result) ∧
      run a gw st r =
        (st ++ [initialInternal a (store_get st r) ++ pairsFlat pairs],
         Except.ok (Message.mk Role.assistant
           (gw N (budgetMessages
             (initialInternal a (store_get st r) ++ pairsFlat pairs))) none)) := by
  have hlen : st.length < (st ++ [initialInternal a (store_get st r)]).length := by simp
  obtain ⟨pairs, hl, hroles, heq⟩ := runLoop_always a gw N 0
    (st ++ [initialInternal a (store_get st r)]) st.length hlen
    (by intro i ms hi; rw [Nat.zero_add]; exact hgw i ms hi)
  refine ⟨pairs, hl, hroles, ?_⟩
  rw [run_eq_runLoop, hN, heq, store_get_append_self, store_set_append_self, Nat.zero_add]

/-- C2 witness: budget 2 with the constant-directive gateway. -/
theorem run_budget_tool_executions_witness :
    (demoAgent 2).max_iterations = 2 ∧
    ∃ pairs : List (Message × Message),
      pairs.length = 2 ∧
      (∀ p ∈ pairs, p.1.role = Role.tool_call ∧ p.2.role = Role.tool_result) ∧
      run (demoAgent 2) gwAlwaysCall [[userMsg]] 0 =
        ([[userMsg]] ++ [initialInternal (demoAgent 2) (store_get [[userMsg]] 0) ++
           pairsFlat pairs],
         Except.ok (Message.mk Role.assistant
           (gwAlwaysCall 2 (budgetMessages
             (initialInternal (demoAgent 2) (store_get [[userMsg]] 0) ++
               pairsFlat pairs))) none)) :=
  ⟨rfl, run_budget_tool_executions (demoAgent 2) gwAlwaysCall [[userMsg]] 0 2 rfl
    (by omega)
    (fun i ms hi => ⟨[("name", Json.str "get_weather"),
      ("parameters", Json.obj [("location", Json.str "Tokyo")])], rfl⟩)⟩

/-- C7: when the budget is exhausted, `run` strips every system message from
the accumulated history, prepends the single fixed forced-final system
message, invokes the gateway exactly once more (call index N) and returns
its text as the assistant message without parsing it. -/
theorem run_budget_forced_final_call (a : Agent) (gw : Nat → List Message → String)
    (st : Store) (r N : Nat) (hN : a.max_iterations = N) (_h1 : 1 ≤ N)
    (hgw : ∀ i ms, i < N → ∃ kvs, _parse_tool_call (gw i ms) =
      Except.ok (some (Json.obj kvs))) :
    ∃ hist : List Message,
      run a gw st r =
        (st ++ [hist],
         Except.ok (Message.mk Role.assistant
           (gw N (Message.mk Role.system
               (GENERIC_SYSTEM_PROMPT ++ "\n\n" ++ MAX_ITERATIONS_PROMPT) none ::
             hist.filter (fun m => m.role != Role.system))) none)) := by
  have hlen : st.length < (st ++ [initialInternal a (store_get st r)]).length := by simp
  obtain ⟨pairs, hl, hroles, heq⟩ := runLoop_always a gw N 0
    (st ++ [initialInternal a (store_get st r)]) st.length hlen
    (by intro i ms hi; rw [Nat.zero_add]; exact hgw i ms hi)
  refine ⟨initialInternal a (store_get st r) ++ pairsFlat pairs, ?_⟩
  rw [run_eq_runLoop, hN, heq, store_get_append_self, store_set_append_self, Nat.zero_add]
  rfl

/-- C7 witness: budget 1; the forced final reply is itself a tool-call
directive and is still returned verbatim. -/
theorem run_budget_forced_final_call_witness :
    (∃ kvs, _parse_tool_call (gwAlwaysCall 1 []) = Except.ok (some (Json.obj kvs))) ∧
    ∃ hist : List Message,
      run (demoAgent 1) gwAlwaysCall [[userMsg]] 0 =
        ([[userMsg]] ++ [hist],
         Except.ok (Message.mk Role.assistant
           (gwAlwaysCall 1 (Message.mk Role.system
               (GENERIC_SYSTEM_PROMPT ++ "\n\n" ++ MAX_ITERATIONS_PROMPT) none ::
             hist.filter (fun m => m.role != Role.system))) none)) :=
  ⟨⟨[("name", Json.str "get_weather"),
      ("parameters", Json.obj [("location", Json.str "Tokyo")])], rfl⟩,
    run_budget_forced_final_call (demoAgent 1) gwAlwaysCall [[userMsg]] 0 1 rfl
      (by omega)
      (fun i ms hi => ⟨[("name", Json.str "get_weather"),
        ("parameters", Json.obj [("location", Json.str "Tokyo")])], rfl⟩)⟩

set_option maxRecDepth 40000 in
/-- C8 counterexample: the parameter lines carry the word already wrapped in
its own parentheses — `(string, (required))` — so the claimed bare-word form
`(string, required)` appears nowhere in the system prompt. -/
theorem param_line_bare_word_cex :
    _format_tool_description weatherTool =
      "  get_weather: Get current weather conditions for any location\n    Parameters:\n    - location (string, (required)): The location to get weather for" ∧
    containsStr (_build_system_prompt (demoAgent 2)) "(string, (required))" = true ∧
    containsStr (_build_system_prompt (demoAgent 2)) "(string, required)" = false :=
  ⟨rfl, by decide, by decide⟩

/-- C8 (amended): for every tool of a non-empty registry and every declared
parameter, the system prompt's tool-usage section contains the line
`    - name (type, (required)): description` (resp. `(optional)`) — the
required/optional word is itself parenthesized inside the outer parentheses,
not bare. -/
theorem param_line_rendered_parenthesized (a : Agent) (t : Tool) (p : String × ParamInfo)
    (ht : t ∈ a.tools) (hp : p ∈ t.parameters) :
    containsStr (_build_system_prompt a)
      ("    - " ++ p.1 ++ " (" ++ p.2.type ++ ", " ++
        (if p.2.required then "(required)" else "(optional)") ++ "): " ++
        p.2.description.getD "") = true := by
  rw [containsStr_iff]
  have hline : ("    - " ++ p.1 ++ " (" ++ p.2.type ++ ", " ++
      (if p.2.required then "(required)" else "(optional)") ++ "): " ++
      p.2.description.getD "") ∈ t.parameters.map (fun q =>
        "    - " ++ q.1 ++ " (" ++ q.2.type ++ ", " ++
          (if q.2.required then "(required)" else "(optional)") ++ "): " ++
          q.2.description.getD "") := List.mem_map_of_mem _ hp
  have h1 := mem_joinSep "\n" _ hline
  have hne : (t.parameters.map (fun q =>
      "    - " ++ q.1 ++ " (" ++ q.2.type ++ ", " ++
        (if q.2.required then "(required)" else "(optional)") ++ "): " ++
        q.2.description.getD "")).isEmpty = false := by
    cases hq : t.parameters with
    | nil => rw [hq] at hp; simp at hp
    | cons q qs => rfl
  have h2 : ("    - " ++ p.1 ++ " (" ++ p.2.type ++ ", " ++
      (if p.2.required then "(required)" else "(optional)") ++ "): " ++
      p.2.description.getD "").data <:+: (_format_tool_description t).data := by
    unfold _format_tool_description
    dsimp only
    simp only [hne, Bool.false_eq_true, if_false]
    exact strInfix_append_left _ _ h1
  have h4 : ("    - " ++ p.1 ++ " (" ++ p.2.type ++ ", " ++
      (if p.2.required then "(required)" else "(optional)") ++ "): " ++
      p.2.description.getD "").data <:+:
      (joinSep "\n\n" (a.tools.map _format_tool_description)).data :=
    h2.trans (mem_joinSep "\n\n" _ (List.mem_map_of_mem _ ht))
  have hane : a.tools.isEmpty = false := by
    cases hq : a.tools with
    | nil => rw [hq] at ht; simp at ht
    | cons x xs => rfl
  unfold _build_system_prompt
  dsimp only
  simp only [hane, Bool.false_eq_true, if_false]
  apply strInfix_append_left
  unfold TOOL_INSTRUCTIONS_fmt
  apply strInfix_append_right
  apply strInfix_append_left
  exact h4

/-- C8 amended witness at the demo weather tool's `location` parameter. -/
theorem param_line_rendered_parenthesized_witness :
    weatherTool ∈ (demoAgent 2).tools ∧
    containsStr (_build_system_prompt (demoAgent 2))
      ("    - " ++ "location" ++ " (" ++ "string" ++ ", " ++
        (if true then "(required)" else "(optional)") ++ "): " ++
        (some "The location to get weather for").getD "") = true :=
  ⟨List.mem_cons_self _ _,
    param_line_rendered_parenthesized (demoAgent 2) weatherTool
      ("location", (⟨"string", true, some "The location to get weather for"⟩ : ParamInfo))
      (List.mem_cons_self _ _) (List.mem_cons_self _ _)⟩
